import Mathlib

/-!
Verification of the core of the Music-Playlist-Generator backend
(`src/main.py`): the text-to-playlist normalizer inside
`generate_song_list` and the sliding-window `RateLimiter`.

Python strings are modelled as `List Char` (so that every string
operation is a structural, kernel-computable function); the results are
packed into `String` (whose kernel representation is a list of
characters) at the record boundary.  Python floats used for timestamps
are modelled as exact integers, and the `\d` / `\s` regex classes as
`Char.isDigit` / `Char.isWhitespace` (the inputs of interest are ASCII).
Operations of the Python code that can raise (`list` indexing,
`random.sample`) are modelled in `Except String`; everything that cannot
raise is a total function.
-/

set_option autoImplicit false

/-- A parsed song record; `generate_song_list` builds Python dicts
`{"title": ..., "artist": ...}`, which the spec calls `SongEntry`. -/
structure SongEntry where
  title : String
  artist : String
deriving DecidableEq, Repr

/-- Leftmost-occurrence substring search: returns the part strictly
before the first occurrence of `sep` and the part strictly after it.
`none` when `sep` does not occur.  This is the search primitive behind
Python's `sep in s`, `s.split(sep, 1)` and `s.split(sep)[0]`. -/
def splitFirst (sep : List Char) : List Char → Option (List Char × List Char)
  | [] => none
  | c :: rest =>
    if sep.isPrefixOf (c :: rest) then some ([], (c :: rest).drop sep.length)
    else
      match splitFirst sep rest with
      | some (pre, post) => some (c :: pre, post)
      | none => none

/-- Python's substring test `sep in s`. -/
def pyContainsSub (sep s : List Char) : Bool :=
  (splitFirst sep s).isSome

/-- Python's `s.split(sep)[0]`: the part of `s` before the first
occurrence of `sep` (all of `s` when `sep` does not occur). -/
def cutFirst (sep s : List Char) : List Char :=
  match splitFirst sep s with
  | some p => p.1
  | none => s

/-- Python's `s.split(sep, 1)`. -/
def pySplit1 (sep s : List Char) : List String :=
  match splitFirst sep s with
  | some p => [String.mk p.1, String.mk p.2]
  | none => [String.mk s]

/-- Python's `s.split(sep)` (full split), fuel-indexed to stay
structurally recursive; `pyLines` instantiates the fuel with a
provably sufficient value. -/
def splitAll (sep : List Char) : Nat → List Char → List (List Char)
  | 0, s => [s]
  | fuel + 1, s =>
    match splitFirst sep s with
    | none => [s]
    | some (pre, post) => pre :: splitAll sep fuel post

/-- Python's `s.strip()` (leading and trailing whitespace removed). -/
def pyStrip (s : List Char) : List Char :=
  ((s.dropWhile (·.isWhitespace)).reverse.dropWhile (·.isWhitespace)).reverse

/-- `playlist_text.split("\n")` from `generate_song_list`. -/
def pyLines (s : List Char) : List (List Char) :=
  splitAll ['\n'] s.length s

/-- `clean_text` (src/main.py:91-96): remove double-quote characters
(the source performs the same single-character `replace` three times),
then strip surrounding whitespace. -/
def clean_text (text : List Char) : List Char :=
  pyStrip (((text.filter (· ≠ '"')).filter (· ≠ '"')).filter (· ≠ '"'))

/-- First numbering pass (src/main.py:148):
`re.sub(r'^\d+[\.\)]?\s*', '', line)`.  One or more leading digits,
optionally one of `.` `)` (note: no `:` in this first pattern), then
any run of whitespace, all removed; a line with no leading digit is
unchanged. -/
def stripNumbering1 (s : List Char) : List Char :=
  if (s.takeWhile (·.isDigit)).isEmpty then s
  else
    let r1 := s.dropWhile (·.isDigit)
    let r2 := match r1 with
      | c :: t => if c = '.' || c = ')' then t else r1
      | [] => []
    r2.dropWhile (·.isWhitespace)

/-- Second numbering pass (src/main.py:151):
`re.sub(r'^\d+[\.\)\:]?\s*', '', line)` — same as the first pass but
with `:` also allowed as the optional punctuation. -/
def stripNumbering2 (s : List Char) : List Char :=
  if (s.takeWhile (·.isDigit)).isEmpty then s
  else
    let r1 := s.dropWhile (·.isDigit)
    let r2 := match r1 with
      | c :: t => if c = '.' || c = ')' || c = ':' then t else r1
      | [] => []
    r2.dropWhile (·.isWhitespace)

/-- The artist clean-up loop (src/main.py:161-164): when the artist
contains a space and any of `:` `-` `/`, cut the artist at the first
occurrence of each separator in the order `:`, `-`, `/`, re-testing
containment against the current value and stripping after each cut. -/
def truncateArtist (artist : List Char) : List Char :=
  if pyContainsSub [' '] artist &&
      (pyContainsSub [':'] artist || pyContainsSub ['-'] artist ||
        pyContainsSub ['/'] artist) then
    let a1 := if pyContainsSub [':'] artist then pyStrip (cutFirst [':'] artist) else artist
    let a2 := if pyContainsSub ['-'] a1 then pyStrip (cutFirst ['-'] a1) else a1
    let a3 := if pyContainsSub ['/'] a2 then pyStrip (cutFirst ['/'] a2) else a2
    a3
  else artist

/-- Python list indexing `l[i]`, which raises `IndexError` when out of
range. -/
def pyIndex {α : Type} (l : List α) (i : Nat) : Except String α :=
  match l[i]? with
  | some x => Except.ok x
  | none => Except.error "list index out of range"

/-- One iteration of the parsing loop of `generate_song_list`
(src/main.py:140-168) on a single line: strip, skip empty lines, two
numbering passes, require the `" - "` separator, split at its first
occurrence into title and artist, `clean_text` both, run the artist
clean-up, and keep the record only when both fields are non-empty.
`Except.ok none` means the line was silently dropped. -/
def processLine (rawLine : List Char) : Except String (Option SongEntry) :=
  let line := pyStrip rawLine
  if line.isEmpty then Except.ok none
  else
    let line := stripNumbering1 line
    let line := stripNumbering2 line
    if pyContainsSub [' ', '-', ' '] line then
      match pyIndex (pySplit1 [' ', '-', ' '] line) 0,
            pyIndex (pySplit1 [' ', '-', ' '] line) 1 with
      | Except.ok p0, Except.ok p1 =>
        let title := clean_text p0.data
        let artist := truncateArtist (clean_text p1.data)
        if !title.isEmpty && !artist.isEmpty then
          Except.ok (some ⟨String.mk title, String.mk artist⟩)
        else Except.ok none
      | Except.error e, _ => Except.error e
      | _, Except.error e => Except.error e
    else Except.ok none

/-- The parsing loop of `generate_song_list` over all lines, collecting
surviving records in source order. -/
def parseLines : List (List Char) → Except String (List SongEntry)
  | [] => Except.ok []
  | l :: rest =>
    match processLine l with
    | Except.error e => Except.error e
    | Except.ok none => parseLines rest
    | Except.ok (some entry) =>
      match parseLines rest with
      | Except.error e => Except.error e
      | Except.ok tail => Except.ok (entry :: tail)

/-- The placeholder records of the empty-playlist branch
(src/main.py:172): `{"title": f"Random {genre} Song {i}",
"artist": f"Artist {i}"}` for `i` in `range(1, 6)`. -/
def placeholderEmpty (genre : String) (i : Nat) : SongEntry :=
  ⟨s!"Random {genre} Song {i}", s!"Artist {i}"⟩

/-- The placeholder records of the fill branch (src/main.py:181-182):
`{"title": f"Random {genre} Song", "artist": f"Artist {i+1}"}` for `i`
in `range(5 - existing_count)`. -/
def placeholderFill (genre : String) (i : Nat) : SongEntry :=
  ⟨s!"Random {genre} Song", s!"Artist {i + 1}"⟩

/-- The selection kernel of Python's `random.sample(pop, k)`: repeat `k`
times: pick an index (driven by the pseudo-random stream `picks`,
reduced modulo the current population size), move that element to the
output, remove it from the population.  Uniform, without replacement;
the stream abstracts `random`'s generator. -/
def sampleGo {α : Type} : List Nat → List α → Nat → List α
  | _, _, 0 => []
  | ps, pop, k + 1 =>
    match pop[ps.headD 0 % pop.length]? with
    | some x => x :: sampleGo ps.tail (pop.eraseIdx (ps.headD 0 % pop.length)) k
    | none => []

/-- Python's `random.sample(pop, k)`, which raises `ValueError` when
`k` exceeds the population size. -/
def pySample {α : Type} (picks : List Nat) (pop : List α) (k : Nat) : Except String (List α) :=
  if pop.length < k then Except.error "Sample larger than population or is negative"
  else Except.ok (sampleGo picks pop k)

/-- The parsing and selection core of `generate_song_list`
(src/main.py:133-186), from `playlist_text = response_json["text"].strip()`
on: parse every line; if nothing survived return five numbered
placeholders; if more than five survived, `random.sample` five of them;
if fewer than five survived, pad with fill placeholders; otherwise
return the five survivors.  `picks` abstracts the state of `random`.
The Cohere HTTP call and logging around this region are orchestration
and are out of scope. -/
def generate_song_list (text genre : String) (picks : List Nat) : Except String (List SongEntry) :=
  match parseLines (pyLines (pyStrip text.data)) with
  | Except.error e => Except.error e
  | Except.ok playlist =>
    if playlist.isEmpty then
      Except.ok ((List.range' 1 5).map (placeholderEmpty genre))
    else if 5 < playlist.length then
      pySample picks playlist 5
    else if playlist.length < 5 then
      Except.ok (playlist ++ (List.range (5 - playlist.length)).map (placeholderFill genre))
    else
      Except.ok playlist

/-- The rate limiter's store `self.requests : Dict[str, List[float]]`
(src/main.py:58), modelled as a partial map from client identifier to
the stored timestamp list. -/
def RLState : Type := String → Option (List Int)

/-- The store of a freshly constructed `RateLimiter` (empty dict). -/
def RLState.empty : RLState := fun _ => none

/-- `RateLimiter.check_rate_limit` (src/main.py:60-75), parameterized by
the configuration globals `RATE_LIMIT` (read from the environment,
default 100) and `RATE_WINDOW` (86400): ensure the identifier has an
entry, prune timestamps `t` with `now - t >= RATE_WINDOW` (the pruned
list is written back in every case), reject when the pruned list already
has `RATE_LIMIT` entries, otherwise append `now` and admit. -/
def check_rate_limit (limit : Nat) (window : Int) (st : RLState) (ip : String)
    (now : Int) : Bool × RLState :=
  let prev := (st ip).getD []
  let pruned := prev.filter (fun t => now - t < window)
  if limit ≤ pruned.length then
    (false, fun k => if k = ip then some pruned else st k)
  else
    (true, fun k => if k = ip then some (pruned ++ [now]) else st k)

/-- A sequence of `check_rate_limit` calls for one identifier at the
given times, collecting the admit/reject decisions in order. -/
def runCalls (limit : Nat) (window : Int) (ip : String) :
    List Int → RLState → List Bool × RLState
  | [], st => ([], st)
  | t :: ts, st =>
    let r := check_rate_limit limit window st ip t
    let rest := runCalls limit window ip ts r.2
    (r.1 :: rest.1, rest.2)

/-- The JSON body built by the `/rate_limit_status` endpoint
(src/main.py:209-218). -/
structure RateLimitStatus where
  total_limit : Nat
  requests_made : Nat
  remaining : Int
  resets_in : String
deriving DecidableEq, Repr

/-- The `/rate_limit_status` endpoint (src/main.py:209-218) together
with its `Depends(check_rate_limit)` guard (src/main.py:80-88): the
dependency runs `rate_limiter.check_rate_limit(client_ip)` first — on
rejection the request ends with HTTP 429 (modelled as `none`); on
admission the handler reads the now-current stored list and reports its
length, `RATE_LIMIT - length`, and `f"{RATE_WINDOW // 3600} hours"`. -/
def rate_limit_status (limit : Nat) (window : Int) (st : RLState) (ip : String)
    (now : Int) : Option RateLimitStatus × RLState :=
  let r := check_rate_limit limit window st ip now
  if r.1 then
    let used := ((r.2 ip).getD []).length
    (some ⟨limit, used, (limit : Int) - used, s!"{window / 3600} hours"⟩, r.2)
  else (none, r.2)

theorem processLine_ok (l : List Char) : ∃ r, processLine l = Except.ok r := by
  unfold processLine
  by_cases h0 : (pyStrip l).isEmpty
  · simp [h0]
  · simp only [h0, Bool.false_eq_true, if_false]
    cases h : splitFirst [' ', '-', ' '] (stripNumbering2 (stripNumbering1 (pyStrip l))) with
    | none => simp [pyContainsSub, h]
    | some p =>
      simp only [pyContainsSub, h, Option.isSome_some, if_true, pySplit1, pyIndex]
      simp only [List.getElem?_cons_zero, List.getElem?_cons_succ]
      split
      · exact ⟨_, rfl⟩
      · exact ⟨none, rfl⟩

theorem parseLines_ok (ls : List (List Char)) : ∃ r, parseLines ls = Except.ok r := by
  induction ls with
  | nil => exact ⟨[], rfl⟩
  | cons l rest ih =>
    obtain ⟨r, hr⟩ := processLine_ok l
    obtain ⟨t, ht⟩ := ih
    cases r with
    | none => exact ⟨t, by simp [parseLines, hr, ht]⟩
    | some e => exact ⟨e :: t, by simp [parseLines, hr, ht]⟩

theorem sampleGo_length {α : Type} :
    ∀ (k : Nat) (ps : List Nat) (pop : List α), k ≤ pop.length →
      (sampleGo ps pop k).length = k := by
  intro k
  induction k with
  | zero => intro ps pop _; rfl
  | succ k ih =>
    intro ps pop h
    have hpos : 0 < pop.length := by omega
    have hlt : ps.headD 0 % pop.length < pop.length := Nat.mod_lt _ hpos
    rw [sampleGo, List.getElem?_eq_getElem hlt]
    have herase : (pop.eraseIdx (ps.headD 0 % pop.length)).length = pop.length - 1 := by
      rw [List.length_eraseIdx, if_pos hlt]
    simp only [List.length_cons]
    rw [ih _ _ (by omega)]

theorem length_filter_lt {α : Type} (p : α → Bool) :
    ∀ (l : List α) (a : α), a ∈ l → p a = false → (l.filter p).length < l.length := by
  intro l
  induction l with
  | nil => intro a ha; cases ha
  | cons x xs ih =>
    intro a ha hpa
    rcases List.mem_cons.mp ha with rfl | hmem
    · have := List.length_filter_le p xs
      simp only [List.filter_cons, hpa, Bool.false_eq_true, if_false, List.length_cons]
      omega
    · cases hx : p x
      · have := List.length_filter_le p xs
        simp only [List.filter_cons, hx, Bool.false_eq_true, if_false, List.length_cons]
        omega
      · have := ih a hmem hpa
        simp only [List.filter_cons, hx, if_true, List.length_cons]
        omega

theorem runCalls_append (limit : Nat) (window : Int) (ip : String) :
    ∀ (xs ys : List Int) (st : RLState),
      runCalls limit window ip (xs ++ ys) st
        = ((runCalls limit window ip xs st).1
             ++ (runCalls limit window ip ys (runCalls limit window ip xs st).2).1,
           (runCalls limit window ip ys (runCalls limit window ip xs st).2).2) := by
  intro xs
  induction xs with
  | nil => intro ys st; rfl
  | cons x xs ih =>
    intro ys st
    simp [runCalls, ih]

theorem runCalls_admit_all (limit : Nat) (window : Int) (ip : String) :
    ∀ (ts pre : List Int) (st : RLState),
      (st ip).getD [] = pre →
      pre.length + ts.length ≤ limit →
      List.Pairwise (· ≤ ·) (pre ++ ts) →
      (∀ a ∈ pre ++ ts, ∀ b ∈ pre ++ ts, a ≤ b → b - a < window) →
      (runCalls limit window ip ts st).1 = List.replicate ts.length true ∧
      ((runCalls limit window ip ts st).2 ip).getD [] = pre ++ ts ∧
      (∀ k, k ≠ ip → (runCalls limit window ip ts st).2 k = st k) := by
  intro ts
  induction ts with
  | nil =>
    intro pre st hpre _ _ _
    exact ⟨rfl, by simpa using hpre, fun k _ => rfl⟩
  | cons t ts ih =>
    intro pre st hpre hlen hsort hwin
    have hmemt : t ∈ pre ++ t :: ts := by simp
    have hfilter : pre.filter (fun x => decide (t - x < window)) = pre := by
      rw [List.filter_eq_self]
      intro a ha
      have hat : a ≤ t := by
        obtain ⟨-, -, hcross⟩ := List.pairwise_append.mp hsort
        exact hcross a ha t (by simp)
      exact decide_eq_true (hwin a (List.mem_append_left _ ha) t hmemt hat)
    have hnot : ¬ limit ≤ pre.length := by
      simp only [List.length_cons] at hlen
      omega
    have hcall : check_rate_limit limit window st ip t
        = (true, fun k => if k = ip then some (pre ++ [t]) else st k) := by
      unfold check_rate_limit
      rw [hpre]
      simp only [hfilter, hnot, if_false]
    have hih := ih (pre ++ [t])
      (fun k => if k = ip then some (pre ++ [t]) else st k)
      (by simp)
      (by simp only [List.length_append, List.length_cons, List.length_nil] at hlen ⊢; omega)
      (by rw [List.append_assoc]; simpa using hsort)
      (by rw [List.append_assoc]; simpa using hwin)
    refine ⟨?_, ?_, ?_⟩
    · show (check_rate_limit limit window st ip t).1
        :: (runCalls limit window ip ts (check_rate_limit limit window st ip t).2).1
        = List.replicate (t :: ts).length true
      rw [hcall]
      simp only [List.length_cons, List.replicate_succ]
      rw [hih.1]
    · show ((runCalls limit window ip ts (check_rate_limit limit window st ip t).2).2 ip).getD []
        = pre ++ t :: ts
      rw [hcall]
      have := hih.2.1
      rwa [List.append_assoc] at this
    · intro k hk
      show (runCalls limit window ip ts (check_rate_limit limit window st ip t).2).2 k = st k
      rw [hcall]
      rw [hih.2.2 k hk]
      simp [hk]

theorem digits_takeWhile (ds rest : List Char) (h2 : ∀ c ∈ ds, c.isDigit) :
    (ds ++ ' ' :: rest).takeWhile (fun c => c.isDigit) = ds ∧
    (ds ++ ' ' :: rest).dropWhile (fun c => c.isDigit) = ' ' :: rest := by
  induction ds with
  | nil => simp [List.takeWhile, List.dropWhile]
  | cons d ds ih =>
    have hd : d.isDigit = true := h2 d (by simp)
    have hrec := ih (fun c hc => h2 c (by simp [hc]))
    constructor
    · simp [List.takeWhile_cons, hd, hrec.1]
    · simp [List.dropWhile_cons, hd, hrec.2]

theorem generate_song_list_ok (text genre : String) (picks : List Nat) :
    ∃ l, generate_song_list text genre picks = Except.ok l ∧ l.length = 5 := by
  obtain ⟨pl, hpl⟩ := parseLines_ok (pyLines (pyStrip text.data))
  unfold generate_song_list
  rw [hpl]
  by_cases he : pl.isEmpty
  · exact ⟨(List.range' 1 5).map (placeholderEmpty genre), by simp [he], by simp⟩
  · by_cases h5 : 5 < pl.length
    · have hnlt : ¬ pl.length < 5 := by omega
      refine ⟨sampleGo picks pl 5, ?_, sampleGo_length 5 picks pl (by omega)⟩
      simp [he, h5, pySample, hnlt]
    · by_cases hlt : pl.length < 5
      · refine ⟨pl ++ (List.range (5 - pl.length)).map (placeholderFill genre),
          by simp [he, h5, hlt], ?_⟩
        have hne : pl.length ≠ 0 := by
          intro hz
          exact he (List.isEmpty_iff_length_eq_zero.mpr hz)
        simp [List.length_append]
        omega
      · have : pl.length = 5 := by
          have := List.isEmpty_iff_length_eq_zero.not.mp he
          omega
        exact ⟨pl, by simp [he, h5, hlt], this⟩

/-- C1: for every raw generated text, genre string and random stream,
the parsing core returns an ordered list of exactly 5 `SongEntry`
records — never fewer, never more — regardless of how many valid
candidate lines the input contains. -/
theorem claim_C1 (text genre : String) (picks : List Nat) :
    ∃ l, generate_song_list text genre picks = Except.ok l ∧ l.length = 5 :=
  generate_song_list_ok text genre picks

/-- C6: parsing raw text into `SongEntry` records terminates normally and
never raises: the whole parse-and-select core returns `Except.ok` for
every input (malformed lines are silently dropped and shortfalls degrade
to placeholder entries), and the per-line step never returns an error
either. -/
theorem claim_C6 (text genre : String) (picks : List Nat) :
    (generate_song_list text genre picks).isOk = true ∧
    ∀ line : List Char, (processLine line).isOk = true := by
  constructor
  · obtain ⟨l, hl, -⟩ := generate_song_list_ok text genre picks
    rw [hl]; rfl
  · intro line
    obtain ⟨r, hr⟩ := processLine_ok line
    rw [hr]; rfl

/-- C8: when the surviving candidate count is at most 5, parsing is
deterministic — the result does not depend on the random stream, because
random downsampling happens only in the `count > 5` branch. -/
theorem claim_C8 (text genre : String) (cands : List SongEntry) (p q : List Nat)
    (hparse : parseLines (pyLines (pyStrip text.data)) = Except.ok cands)
    (hle : cands.length ≤ 5) :
    generate_song_list text genre p = generate_song_list text genre q := by
  unfold generate_song_list
  rw [hparse]
  have h5 : ¬ 5 < cands.length := by omega
  by_cases he : cands.isEmpty
  · simp [he]
  · simp [he, h5]

theorem claim_C8_witness :
    parseLines (pyLines (pyStrip ("Imagine - John Lennon" : String).data))
        = Except.ok [⟨"Imagine", "John Lennon"⟩] ∧
    generate_song_list "Imagine - John Lennon" "rock" [0]
        = generate_song_list "Imagine - John Lennon" "rock" [3] :=
  ⟨by rfl, claim_C8 "Imagine - John Lennon" "rock" [⟨"Imagine", "John Lennon"⟩]
    [0] [3] (by rfl) (by decide)⟩

/-- C10: the numbering pattern's punctuation is optional, so a line whose
trimmed form begins with digits followed by whitespace (no `.`, `)` or
`:` after the digits) loses those digits anyway; in particular
`"99 Luftballons - Nena"` is parsed with the leading number removed from
the title. -/
theorem claim_C10 (ds rest : List Char) (h1 : ds ≠ []) (h2 : ∀ c ∈ ds, c.isDigit) :
    stripNumbering1 (ds ++ ' ' :: rest) = rest.dropWhile (·.isWhitespace) ∧
    processLine ("99 Luftballons - Nena").data
      = Except.ok (some ⟨"Luftballons", "Nena"⟩) := by
  obtain ⟨ht, hd⟩ := digits_takeWhile ds rest h2
  constructor
  · have hne : ds.isEmpty = false := by
      cases ds
      · exact absurd rfl h1
      · rfl
    simp only [stripNumbering1, ht, hd, hne, Bool.false_eq_true, if_false,
      List.dropWhile_cons]
    simp
  · rfl

theorem claim_C10_witness :
    (['9', '9'] ≠ ([] : List Char)) ∧
    stripNumbering1 (['9', '9'] ++ ' ' :: ("Luftballons - Nena").data)
      = ("Luftballons - Nena").data.dropWhile (·.isWhitespace) :=
  ⟨by decide, (claim_C10 ['9', '9'] ("Luftballons - Nena").data
    (by decide) (by decide)).1⟩

/-- C3 fails as stated: the artist clean-up fires whenever the artist
contains a space anywhere together with a separator anywhere — the
separator need not come after a space.  `"Jean-Michel Jarre"` has its
only `-` inside the hyphenated name, before the space, yet it is
truncated to `"Jean"`. -/
theorem claim_C3_counterexample :
    processLine ("Song - Jean-Michel Jarre").data
      = Except.ok (some ⟨"Song", "Jean"⟩) ∧
    ("Jean" : String) ≠ "Jean-Michel Jarre" :=
  ⟨by rfl, by decide⟩

/-- C3 (amended): the artist part is cut at the first occurrence of `:`,
`-` or `/` when the artist contains a space anywhere and such a
separator anywhere (not necessarily after a space); with no space or no
separator the artist is untouched; the cut applies to the artist field
only, never the title (`"Song: Go - AC/DC"` keeps its full title, and
the space-free artist `"AC/DC"` keeps its slash); `"Queen : Greatest
Hits"` normalizes to `"Queen"`, and the hyphenated `"Jean-Michel
Jarre"` is truncated to `"Jean"`. -/
theorem claim_C3 (a : List Char)
    (h : (pyContainsSub [' '] a && (pyContainsSub [':'] a || pyContainsSub ['-'] a ||
      pyContainsSub ['/'] a)) = false) :
    truncateArtist a = a ∧
    truncateArtist ("Queen : Greatest Hits").data = ("Queen").data ∧
    truncateArtist ("Jean-Michel Jarre").data = ("Jean").data ∧
    processLine ("Song: Go - AC/DC").data
      = Except.ok (some ⟨"Song: Go", "AC/DC"⟩) := by
  refine ⟨?_, by rfl, by rfl, by rfl⟩
  simp only [truncateArtist, h, Bool.false_eq_true, if_false]

theorem claim_C3_witness :
    (pyContainsSub [' '] ("Nena").data && (pyContainsSub [':'] ("Nena").data ||
      pyContainsSub ['-'] ("Nena").data || pyContainsSub ['/'] ("Nena").data)) = false ∧
    truncateArtist ("Nena").data = ("Nena").data :=
  ⟨by rfl, (claim_C3 ("Nena").data (by rfl)).1⟩

/-- C4 fails as stated: the first stripping pass
`re.sub(r'^\d+[\.\)]?\s*', '', line)` does not accept `:` after the
digits, and the second pass cannot fire because the leftover line starts
with `:`, not a digit.  So `"3: Imagine - John Lennon"` keeps `": "`,
yielding the title `": Imagine"` instead of `"Imagine"`. -/
theorem claim_C4_counterexample :
    processLine ("3: Imagine - John Lennon").data
      = Except.ok (some ⟨": Imagine", "John Lennon"⟩) ∧
    (": Imagine" : String) ≠ "Imagine" :=
  ⟨by rfl, by decide⟩

/-- C4 (amended): a leading numeric marker with `.` or `)` (and optional
following space) is stripped before separator detection, and the
stripping runs twice so doubled markers such as `"1. 2: "` are fully
removed (the second pass also accepts `:`); but a single `"3: "` marker
loses only its digits — the `": "` survives into the title. -/
theorem claim_C4 :
    processLine ("1. Imagine - John Lennon").data
      = Except.ok (some ⟨"Imagine", "John Lennon"⟩) ∧
    processLine ("2) Imagine - John Lennon").data
      = Except.ok (some ⟨"Imagine", "John Lennon"⟩) ∧
    processLine ("3: Imagine - John Lennon").data
      = Except.ok (some ⟨": Imagine", "John Lennon"⟩) ∧
    processLine ("1. 2: Imagine - John Lennon").data
      = Except.ok (some ⟨"Imagine", "John Lennon"⟩) := by
  refine ⟨by rfl, by rfl, by rfl, by rfl⟩

/-- C7 fails as stated: no step of the loop strips a leading bullet
marker `"- "`; the line `"- Imagine - John Lennon"` is split at the
first interior `" - "`, so its title is `"- Imagine"`, not
`"Imagine"`. -/
theorem claim_C7_counterexample :
    processLine ("- Imagine - John Lennon").data
      = Except.ok (some ⟨"- Imagine", "John Lennon"⟩) ∧
    ("- Imagine" : String) ≠ "Imagine" :=
  ⟨by rfl, by decide⟩

/-- C7 (amended): there is no bullet-marker stripping; a line beginning
with `"- "` keeps the marker as part of its title, and the whole
pipeline returns it that way (padded with placeholders to five). -/
theorem claim_C7 :
    generate_song_list "- Imagine - John Lennon" "rock" []
      = Except.ok [⟨"- Imagine", "John Lennon"⟩,
          ⟨"Random rock Song", "Artist 1"⟩, ⟨"Random rock Song", "Artist 2"⟩,
          ⟨"Random rock Song", "Artist 3"⟩, ⟨"Random rock Song", "Artist 4"⟩] := by
  rfl

/-- C2 fails as stated: the `/rate_limit_status` endpoint runs the
rate-limiting dependency before answering, so a status query from a
fresh identifier records a new timestamp (the stored list changes from
absent to `[now]`) and reports `used = 1` although no unexpired
timestamp existed before the query. -/
theorem claim_C2_counterexample :
    (rate_limit_status 100 86400 RLState.empty "1.2.3.4" 0).2 "1.2.3.4" = some [0] ∧
    RLState.empty "1.2.3.4" = none ∧
    (rate_limit_status 100 86400 RLState.empty "1.2.3.4" 0).1
      = some ⟨100, 1, 99, "24 hours"⟩ :=
  ⟨by rfl, by rfl, by rfl⟩

/-- C2 (amended): the status query passes through the rate limiter
first.  When the caller is under the limit, the query itself is
recorded: the stored list for the identifier becomes the pruned list
with `now` appended, the response reports `used` = that new length
(including the query itself), `remaining = limit - used`, and the window
as an hours string; lists of all other identifiers are untouched.  (When
the caller is at the limit the dependency rejects with HTTP 429 instead
of answering.) -/
theorem claim_C2 (limit : Nat) (window : Int) (st : RLState) (ip : String) (now : Int)
    (hadm : (((st ip).getD []).filter (fun t => now - t < window)).length < limit) :
    (rate_limit_status limit window st ip now).2 ip
      = some ((((st ip).getD []).filter (fun t => now - t < window)) ++ [now]) ∧
    (rate_limit_status limit window st ip now).1
      = some ⟨limit, (((st ip).getD []).filter (fun t => now - t < window)).length + 1,
          (limit : Int) - ((((st ip).getD []).filter (fun t => now - t < window)).length + 1),
          s!"{window / 3600} hours"⟩ ∧
    ∀ k, k ≠ ip → (rate_limit_status limit window st ip now).2 k = st k := by
  have hc : ¬ limit ≤ (((st ip).getD []).filter (fun t => decide (now - t < window))).length := by
    omega
  refine ⟨?_, ?_, ?_⟩
  · simp only [rate_limit_status, check_rate_limit, hc, if_false, if_true]
  · simp only [rate_limit_status, check_rate_limit, hc, if_false, if_true]
    simp only [if_pos rfl, Option.getD_some, List.length_append, List.length_cons,
      List.length_nil]
    norm_num
  · intro k hk
    simp only [rate_limit_status, check_rate_limit, hc, if_false, if_true]
    simp [hk]

theorem claim_C2_witness :
    ((((RLState.empty "8.8.8.8").getD []).filter
        (fun t => (0 : Int) - t < 86400)).length < 100) ∧
    (rate_limit_status 100 86400 RLState.empty "8.8.8.8" 0).2 "8.8.8.8" = some [0] :=
  ⟨by decide, (claim_C2 100 86400 RLState.empty "8.8.8.8" 0 (by decide)).1⟩

theorem check_eval (limit : Nat) (window : Int) (st : RLState) (ip : String)
    (now : Int) (l : List Int) (h : (st ip).getD [] = l) :
    check_rate_limit limit window st ip now
      = (if limit ≤ (l.filter (fun t => decide (now - t < window))).length then
          (false, fun k => if k = ip
            then some (l.filter (fun t => decide (now - t < window))) else st k)
        else
          (true, fun k => if k = ip
            then some ((l.filter (fun t => decide (now - t < window))) ++ [now]) else st k)) := by
  subst h
  rfl

/-- C5: for any configured limit `L` and window `W`, starting from no
recorded timestamps, `L` calls inside one window are all admitted, an
`(L+1)`-th call still inside the window is rejected, and a later call at
least `W` after the first admitted timestamp is admitted again;
concretely (see the witness) with `L = 10`, `W = 3600`: ten calls at
`t = 0` admit, an 11th at `t = 1` is rejected, a call at `t = 3601` is
admitted. -/
theorem claim_C5 (limit : Nat) (window : Int) (ip : String) (ts : List Int)
    (t1 tR tA : Int)
    (hlen : ts.length = limit)
    (hhead : ts.head? = some t1)
    (hsorted : List.Pairwise (· ≤ ·) (ts ++ [tR]))
    (hwin : ∀ a ∈ ts ++ [tR], ∀ b ∈ ts ++ [tR], a ≤ b → b - a < window)
    (hA : window ≤ tA - t1) :
    (runCalls limit window ip (ts ++ [tR, tA]) RLState.empty).1
      = List.replicate limit true ++ [false, true] := by
  obtain ⟨hsort_ts, -, hcross⟩ := List.pairwise_append.mp hsorted
  have hwints : ∀ a ∈ ts, ∀ b ∈ ts, a ≤ b → b - a < window := fun a ha b hb hab =>
    hwin a (List.mem_append_left _ ha) b (List.mem_append_left _ hb) hab
  have hadmit := runCalls_admit_all limit window ip ts [] RLState.empty rfl
    (by simp; omega) (by simpa using hsort_ts) (by simpa using hwints)
  have hstA : ((runCalls limit window ip ts RLState.empty).2 ip).getD [] = ts := by
    simpa using hadmit.2.1
  have hkeepR : ts.filter (fun x => decide (tR - x < window)) = ts := by
    rw [List.filter_eq_self]
    intro a ha
    exact decide_eq_true (hwin a (List.mem_append_left _ ha) tR (by simp)
      (hcross a ha tR (by simp)))
  have hrejR : check_rate_limit limit window
      (runCalls limit window ip ts RLState.empty).2 ip tR
      = (false, fun k => if k = ip then some ts
          else (runCalls limit window ip ts RLState.empty).2 k) := by
    rw [check_eval limit window _ ip tR ts hstA, hkeepR, if_pos (by omega)]
  have ht1 : t1 ∈ ts := by
    cases ts with
    | nil => simp at hhead
    | cons a l =>
      simp only [List.head?_cons, Option.some.injEq] at hhead
      simp [← hhead]
  have hdropA : (decide (tA - t1 < window)) = false := by
    simp only [decide_eq_false_iff_not]
    omega
  have hltA : (ts.filter (fun x => decide (tA - x < window))).length < limit := by
    rw [← hlen]
    exact length_filter_lt _ ts t1 ht1 hdropA
  have hadmA : (check_rate_limit limit window
      (fun k => if k = ip then some ts
        else (runCalls limit window ip ts RLState.empty).2 k) ip tA).1 = true := by
    rw [check_eval limit window _ ip tA ts (by simp), if_neg (by omega)]
  rw [runCalls_append]
  have hstep : (runCalls limit window ip [tR, tA]
      (runCalls limit window ip ts RLState.empty).2).1
      = (check_rate_limit limit window
          (runCalls limit window ip ts RLState.empty).2 ip tR).1
        :: (check_rate_limit limit window
            (check_rate_limit limit window
              (runCalls limit window ip ts RLState.empty).2 ip tR).2 ip tA).1
        :: [] := rfl
  rw [hstep, hrejR, hadmit.1, hlen]
  simp only [hadmA]

theorem claim_C5_witness :
    (List.replicate 10 (0 : Int)).length = 10 ∧
    (runCalls 10 3600 "1.2.3.4" (List.replicate 10 (0 : Int) ++ [1, 3601])
        RLState.empty).1 = List.replicate 10 true ++ [false, true] :=
  ⟨by decide, claim_C5 10 3600 "1.2.3.4" (List.replicate 10 (0 : Int)) 0 1 3601
    (by decide) (by decide) (by decide) (by decide) (by decide)⟩

/-- C9: after any `check_rate_limit` call for `ip` at time `now` —
admitting or rejecting — `ip`'s stored list exists, has length at most
the configured limit, and holds only timestamps `t` with
`now - t < window`; and the length bound is preserved for every stored
identifier (given it held before the call). -/
theorem claim_C9 (limit : Nat) (window : Int) (st : RLState) (ip : String) (now : Int)
    (hW : 0 < window)
    (hinv : ∀ k l, st k = some l → l.length ≤ limit) :
    (∃ l, (check_rate_limit limit window st ip now).2 ip = some l ∧
        l.length ≤ limit ∧ ∀ t ∈ l, now - t < window) ∧
    ∀ k l, (check_rate_limit limit window st ip now).2 k = some l → l.length ≤ limit := by
  have hprev : ((st ip).getD []).length ≤ limit := by
    cases h : st ip with
    | none => simp
    | some l => simpa using hinv ip l h
  have hple := List.length_filter_le (fun t => decide (now - t < window)) ((st ip).getD [])
  have heval := check_eval limit window st ip now ((st ip).getD []) rfl
  by_cases hc : limit ≤ (((st ip).getD []).filter (fun t => decide (now - t < window))).length
  · constructor
    · refine ⟨((st ip).getD []).filter (fun t => decide (now - t < window)),
        ?_, by omega, ?_⟩
      · rw [heval, if_pos hc]
        simp
      · intro t ht
        simpa using List.of_mem_filter ht
    · intro k l hkl
      rw [heval, if_pos hc] at hkl
      dsimp only at hkl
      by_cases hk : k = ip
      · subst hk
        rw [if_pos rfl, Option.some.injEq] at hkl
        rw [← hkl]
        omega
      · rw [if_neg hk] at hkl
        exact hinv k l hkl
  · constructor
    · refine ⟨(((st ip).getD []).filter (fun t => decide (now - t < window))) ++ [now],
        ?_, ?_, ?_⟩
      · rw [heval, if_neg hc]
        simp
      · simp only [List.length_append, List.length_cons, List.length_nil]
        omega
      · intro t ht
        rcases List.mem_append.mp ht with hmem | hmem
        · simpa using List.of_mem_filter hmem
        · have : t = now := by simpa using hmem
          omega
    · intro k l hkl
      rw [heval, if_neg hc] at hkl
      dsimp only at hkl
      by_cases hk : k = ip
      · subst hk
        rw [if_pos rfl, Option.some.injEq] at hkl
        rw [← hkl]
        simp only [List.length_append, List.length_cons, List.length_nil]
        omega
      · rw [if_neg hk] at hkl
        exact hinv k l hkl

theorem claim_C9_witness :
    (0 : Int) < 86400 ∧
    (∃ l, (check_rate_limit 100 86400 RLState.empty "1.2.3.4" 7).2 "1.2.3.4" = some l ∧
        l.length ≤ 100 ∧ ∀ t ∈ l, (7 : Int) - t < 86400) :=
  ⟨by decide, (claim_C9 100 86400 RLState.empty "1.2.3.4" 7 (by decide)
    (fun k l h => by simp [RLState.empty] at h)).1⟩
